import Mathlib

/-
Shallow embedding of the TurboQuery coordinator (StudioLambda/TurboQuery).

The repository ships two implementations of the coordinator:
  * `src/turbo-query.ts` — the library entry point (vite builds from it); it
    uses a plain JS `Map` for both caches and `EventTarget` for events.
    Embedded below in namespace `TurboQueryTs`.
  * `src/query.ts` — the earlier implementation; it uses the repo's own
    `TurboCache` (whose `get` throws on a missing key, see `src/cache.ts`)
    and `TurboEvents` (see `src/events.ts`).  Embedded in namespace `QueryTs`.

Code shared verbatim between the two files (the refetch procedure, forget,
abort, hydrate, configure) is embedded once at the `TurboQuery` level.

Values produced by fetchers are a type parameter `V`; errors are `E`
(instantiated with `String` where a file's own error messages matter).
`Date` timestamps are modelled as `Nat` milliseconds.  Promises are modelled
by their eventual settlement (`Outcome`); a pending promise stored in the
resolvers cache is identified by a numeric handle, and the coordinator state
records, in order, every fetcher invocation and every emitted event, so that
theorems can speak about "the producer was invoked" and about event payloads.
-/

namespace TurboQuery

/-- Association-list model of a JS `Map` from string keys to `V`
(`src/turbo-query.ts` uses `Map` directly; `src/cache.ts` wraps one).
`set` overwrites in place or appends, `delete` removes, `get` is the lookup;
a `Map` never holds two entries for one key, which here corresponds to the
key list being duplicate-free. -/
abbrev Store (V : Type) := List (String × V)

/-- Lookup of a key, `Map.prototype.get` (absence is `none`). -/
def Store.get {V : Type} : Store V → String → Option V
  | [], _ => none
  | p :: rest, k => if p.1 = k then some p.2 else Store.get rest k

/-- Write of a key, `Map.prototype.set`: overwrite the existing entry in
place, otherwise append a new entry. -/
def Store.set {V : Type} : Store V → String → V → Store V
  | [], k, v => [(k, v)]
  | p :: rest, k, v => if p.1 = k then (k, v) :: rest else p :: Store.set rest k v

/-- Removal of a key, `Map.prototype.delete`. -/
def Store.delete {V : Type} : Store V → String → Store V
  | [], _ => []
  | p :: rest, k => if p.1 = k then Store.delete rest k else p :: Store.delete rest k

/-- Key list of the store, `Map.prototype.keys` (in insertion order). -/
def Store.keysList {V : Type} (s : Store V) : List String := s.map Prod.fst

/-- Entry of the items cache: `{ item, expiresAt }` (`ItemsCacheItem` in both
source files); `expiresAt` is a `Date`, modelled as `Nat` milliseconds. -/
structure ItemsCacheItem (V : Type) where
  item : V
  expiresAt : Nat
deriving DecidableEq

/-- Entry of the resolvers cache: `{ item: Promise<T>, controller }`
(`ResolversCacheItem` in both source files).  The pending promise and the
abort controller are identified by the numeric handles the coordinator
allocated for them. -/
structure ResolversCacheItem where
  item : Nat
  controller : Nat
deriving DecidableEq

/-- Eventual settlement of a promise returned by a fetcher. -/
inductive Outcome (V E : Type) where
  | ok (v : V)
  | fail (e : E)
deriving DecidableEq

/-- Behaviour of one fetcher invocation `fetcher(key, { signal })`:
whether the call does real producer work (as opposed to rejecting
immediately for configuration reasons, like `query.ts`'s default fetcher),
and how the returned promise eventually settles. -/
structure FetcherCall (V E : Type) where
  invokesProducer : Bool
  out : Outcome V E

/-- Payload of an emitted event: a pending promise (for `refetching` and
`aborted`), a value (for `resolved`, `mutated`, `forgotten`, `hydrated`),
or an error (for `error`). -/
inductive EvPayload (V E : Type) where
  | promise (id : Nat)
  | value (v : V)
  | err (e : E)
deriving DecidableEq

/-- State owned by one coordinator instance: the two caches, plus a log of
fetcher invocations (`calls`, recording the key and whether the call reaches
a producer) and of emitted events, and a counter for fresh promise and
controller handles. -/
structure QueryState (V E : Type) where
  items : Store (ItemsCacheItem V)
  resolvers : Store ResolversCacheItem
  nextId : Nat
  calls : List (String × Bool)
  events : List (String × EvPayload V E)
deriving DecidableEq

/-- Result of the synchronous prefix of `refetch` (both files, identical
code): either the call deduplicated against an already-pending resolution
(`return await resolversCache.get(key).item`), or it invoked the fetcher,
published the new resolver and emitted `refetching:<key>`, and is now
awaiting the new pending promise. -/
inductive RefetchStartResult where
  | joined (pid : Nat)
  | started (pid : Nat)
deriving DecidableEq

/-- Synchronous prefix of `refetch(key)` (`src/turbo-query.ts` lines
499-517, `src/query.ts` lines 408-423): check the resolvers cache; if a
pending resolution exists, await it; otherwise create the abort controller,
invoke the fetcher, store the resolver, and emit `refetching:<key>` carrying
the pending promise — all before the first suspension point. -/
def refetchStart {V E : Type} (fetcher : String → FetcherCall V E)
    (s : QueryState V E) (key : String) : QueryState V E × RefetchStartResult :=
  match Store.get s.resolvers key with
  | some pending => (s, .joined pending.item)
  | none =>
    let controller := s.nextId
    let pid := s.nextId + 1
    let c := fetcher key
    ({ s with
        nextId := s.nextId + 2
        calls := s.calls ++ [(key, c.invokesProducer)]
        resolvers := Store.set s.resolvers key ⟨pid, controller⟩
        events := s.events ++ [("refetching:" ++ key, EvPayload.promise pid)] },
      .started pid)

/-- Result of a `query`/`refetch` call: the promise resolved with a value,
rejected with an error, or the call joined a previously pending promise
whose settlement is external to this call. -/
inductive QueryResult (V E : Type) where
  | resolved (v : V)
  | rejected (e : E)
  | joined (pid : Nat)
deriving DecidableEq

/-- Continuation of `refetch(key)` after the awaited fetcher promise
settles.  On success (`turbo-query.ts` lines 520-534): remove the resolver,
compute `expiresAt = now + expiration(item)`, overwrite the items-cache
entry and emit `resolved:<key>`.  On failure (the `catch`, lines 535-549):
remove the resolver, delete the items-cache entry when `removeOnError` is
set, emit `error:<key>` with the failure, and re-throw the original error. -/
def refetchFinish {V E : Type} (s : QueryState V E) (key : String) (now : Nat)
    (expiration : V → Nat) (removeOnError : Bool) :
    Outcome V E → QueryState V E × QueryResult V E
  | .ok v =>
    let s1 := { s with resolvers := Store.delete s.resolvers key }
    let expiresAt := now + expiration v
    ({ s1 with
        items := Store.set s1.items key ⟨v, expiresAt⟩
        events := s1.events ++ [("resolved:" ++ key, EvPayload.value v)] },
      .resolved v)
  | .fail e =>
    let s1 := { s with resolvers := Store.delete s.resolvers key }
    let s2 := if removeOnError then { s1 with items := Store.delete s1.items key } else s1
    ({ s2 with events := s2.events ++ [("error:" ++ key, EvPayload.err e)] }, .rejected e)

/-- Complete run of `refetch(key)`: the synchronous prefix followed, when a
new resolution was started, by the continuation on the settlement of the
fetcher's promise.  A call that joined an existing pending resolution
performs no further state change of its own. -/
def refetchRun {V E : Type} (fetcher : String → FetcherCall V E) (s : QueryState V E)
    (key : String) (now : Nat) (expiration : V → Nat) (removeOnError : Bool) :
    QueryState V E × QueryResult V E :=
  match refetchStart fetcher s key with
  | (s1, .joined pid) => (s1, .joined pid)
  | (s1, .started _) => refetchFinish s1 key now expiration removeOnError (fetcher key).out

/-- The option bag `TurboQueryOptions` (and the scalar part of
`TurboQueryConfiguration`, which extends it): every field is optional, both
at construction, in `configure`, and per `query` call.  The injectable cache
and event-channel instances are outside this model. -/
structure TurboQueryOptions (V E : Type) where
  expiration : Option (V → Nat)
  fetcher : Option (String → FetcherCall V E)
  stale : Option Bool
  removeOnError : Option Bool
  fresh : Option Bool

/-- Empty option bag (`query(key)` with no options / `createTurboQuery()`). -/
def noOptions (V E : Type) : TurboQueryOptions V E :=
  { expiration := none, fetcher := none, stale := none, removeOnError := none, fresh := none }

/-- Mutable configuration state of one coordinator instance.  `ctorFresh`
keeps the construction-time `instanceOptions?.fresh` separately, because
`query` reads `options?.fresh ?? instanceOptions?.fresh` (turbo-query.ts
line 496, query.ts line 405) while `configure` updates the separate
`instanceFresh` variable.  `instExpiration`/`instFetcher` are `none` while
no user value was supplied, in which case the file's default is used. -/
structure Instance (V E : Type) where
  ctorFresh : Option Bool
  instExpiration : Option (V → Nat)
  instFetcher : Option (String → FetcherCall V E)
  instStale : Bool
  instRemoveOnError : Bool
  instFresh : Bool

/-- Initialisation of the instance variables in `createTurboQuery`
(turbo-query.ts lines 281-324, query.ts lines 223-265): each falls back
with `??` to its default (`stale` true, `removeOnError` false, `fresh`
false; expiration and fetcher keep `none` to mean "use the default"). -/
def createTurboQuery {V E : Type} (instanceOptions : Option (TurboQueryOptions V E)) :
    Instance V E :=
  { ctorFresh := instanceOptions.bind (fun o => o.fresh)
    instExpiration := instanceOptions.bind (fun o => o.expiration)
    instFetcher := instanceOptions.bind (fun o => o.fetcher)
    instStale := (instanceOptions.bind (fun o => o.stale)).getD true
    instRemoveOnError := (instanceOptions.bind (fun o => o.removeOnError)).getD false
    instFresh := (instanceOptions.bind (fun o => o.fresh)).getD false }

/-- The `configure` operation (turbo-query.ts lines 329-338, query.ts lines
270-279): every line is `instanceX = options?.x ?? instanceX`, so each
supplied field replaces the instance value and unspecified fields keep
their prior values; calling with no argument changes nothing.  The
construction-time snapshot `ctorFresh` is untouched — `configure` only
writes `instanceFresh`. -/
def configure {V E : Type} (i : Instance V E) (options : Option (TurboQueryOptions V E)) :
    Instance V E :=
  match options with
  | none => i
  | some o =>
    { i with
        instExpiration := o.expiration.orElse (fun _ => i.instExpiration)
        instFetcher := o.fetcher.orElse (fun _ => i.instFetcher)
        instStale := o.stale.getD i.instStale
        instRemoveOnError := o.removeOnError.getD i.instRemoveOnError
        instFresh := o.fresh.getD i.instFresh }

/-- Effective `stale` for a query call: `options?.stale ?? instanceStale`. -/
def effStale {V E : Type} (i : Instance V E) (o : TurboQueryOptions V E) : Bool :=
  o.stale.getD i.instStale

/-- Effective `removeOnError`: `options?.removeOnError ?? instanceRemoveOnError`. -/
def effRemoveOnError {V E : Type} (i : Instance V E) (o : TurboQueryOptions V E) : Bool :=
  o.removeOnError.getD i.instRemoveOnError

/-- Effective `fresh`: `options?.fresh ?? instanceOptions?.fresh`, then used
as a JS truthiness test (`undefined` counts as false).  Note the source
reads the construction-time options object here, not the `instanceFresh`
variable that `configure` maintains. -/
def effFresh {V E : Type} (i : Instance V E) (o : TurboQueryOptions V E) : Bool :=
  (o.fresh.orElse (fun _ => i.ctorFresh)).getD false

/-- Effective expiration policy: `options?.expiration ?? instanceExpiration`,
where the instance value defaults to `defaultExpiration`, the constant
2000 ms function defined in both files. -/
def effExpiration {V E : Type} (i : Instance V E) (o : TurboQueryOptions V E) : V → Nat :=
  (o.expiration.orElse (fun _ => i.instExpiration)).getD (fun _ => 2000)

namespace QueryTs

/-- Default fetcher of `src/query.ts` (lines 216-218): an async function
that unconditionally throws `Error('No fetcher defined. Please add a
fetcher first.')`.  It performs no producer work; the returned promise is
already rejected with the configuration error. -/
def defaultFetcher (V : Type) : FetcherCall V String :=
  { invokesProducer := false
    out := Outcome.fail "No fetcher defined. Please add a fetcher first." }

/-- Effective fetcher of a `query.ts` query call:
`options?.fetcher ?? instanceFetcher`, the instance value defaulting to
`defaultFetcher`. -/
def effFetcher {V : Type} (i : Instance V String) (o : TurboQueryOptions V String) :
    String → FetcherCall V String :=
  (o.fetcher.orElse (fun _ => i.instFetcher)).getD (fun _ => QueryTs.defaultFetcher V)

/-- Staleness classification of `src/query.ts` line 462:
`const hasExpired = cached.expiresAt < new Date()` — strict comparison, so
an entry is still fresh at the exact expiry instant. -/
def hasExpired (expiresAt now : Nat) : Bool := expiresAt < now

end QueryTs

/-- Shape of the settled `fetch` response, as far as `turbo-query.ts`'s
default fetcher consumes it: `ok`, `statusText`, and the parsed JSON body. -/
structure Response (V : Type) where
  ok : Bool
  statusText : String
  body : V

namespace TurboQueryTs

/-- Default fetcher of `src/turbo-query.ts` (lines 253-265): a wrapper over
the global `fetch` that requests the key as URL, throws
`'Unable to fetch the data: ' + statusText` on a non-ok response, and
returns the parsed JSON body otherwise.  Unlike `query.ts`'s default, it
does invoke an external producer. -/
def defaultFetcher {V : Type} (fetch : String → Response V) (key : String) :
    FetcherCall V String :=
  { invokesProducer := true
    out :=
      let response := fetch key
      if response.ok then Outcome.ok response.body
      else Outcome.fail ("Unable to fetch the data: " ++ response.statusText) }

/-- Effective fetcher of a `turbo-query.ts` query call:
`options?.fetcher ?? instanceFetcher`, the instance value defaulting to
`defaultFetcher(fetch)`. -/
def effFetcher {V : Type} (fetch : String → Response V) (i : Instance V String)
    (o : TurboQueryOptions V String) : String → FetcherCall V String :=
  (o.fetcher.orElse (fun _ => i.instFetcher)).getD (TurboQueryTs.defaultFetcher fetch)

/-- Staleness classification of `src/turbo-query.ts` line 564:
`const hasExpired = cached.expiresAt <= new Date()` — an entry counts as
expired at the exact expiry instant. -/
def hasExpired (expiresAt now : Nat) : Bool := expiresAt ≤ now

/-- The `query` operation of `src/turbo-query.ts` (lines 465-591): resolve
the effective per-call options, refetch unconditionally when `fresh`,
otherwise classify the cached entry; an expired entry with `stale` starts a
background refetch whose failure is swallowed (`refetch(key).catch(() => {})`)
while the stale value is returned, an expired entry without `stale` awaits
the refetch, and a live entry is returned as-is with no producer call. -/
def query {V : Type} (fetch : String → Response V) (i : Instance V String)
    (s : QueryState V String) (key : String) (options : TurboQueryOptions V String)
    (now : Nat) : QueryState V String × QueryResult V String :=
  let expiration := effExpiration i options
  let fetcher := TurboQueryTs.effFetcher fetch i options
  let stale := effStale i options
  let removeOnError := effRemoveOnError i options
  let fresh := effFresh i options
  if fresh then refetchRun fetcher s key now expiration removeOnError
  else
    match Store.get s.items key with
    | some cached =>
      if TurboQueryTs.hasExpired cached.expiresAt now && stale then
        ((refetchRun fetcher s key now expiration removeOnError).1,
          QueryResult.resolved cached.item)
      else if TurboQueryTs.hasExpired cached.expiresAt now then
        refetchRun fetcher s key now expiration removeOnError
      else (s, QueryResult.resolved cached.item)
    | none => refetchRun fetcher s key now expiration removeOnError

end TurboQueryTs

namespace QueryTs

/-- The `query` operation of `src/query.ts` (lines 374-486): identical
control flow to `turbo-query.ts`, except that the default fetcher is the
throwing one and staleness uses the strict `<` comparison. -/
def query {V : Type} (i : Instance V String) (s : QueryState V String) (key : String)
    (options : TurboQueryOptions V String) (now : Nat) :
    QueryState V String × QueryResult V String :=
  let expiration := effExpiration i options
  let fetcher := QueryTs.effFetcher i options
  let stale := effStale i options
  let removeOnError := effRemoveOnError i options
  let fresh := effFresh i options
  if fresh then refetchRun fetcher s key now expiration removeOnError
  else
    match Store.get s.items key with
    | some cached =>
      if QueryTs.hasExpired cached.expiresAt now && stale then
        ((refetchRun fetcher s key now expiration removeOnError).1,
          QueryResult.resolved cached.item)
      else if QueryTs.hasExpired cached.expiresAt now then
        refetchRun fetcher s key now expiration removeOnError
      else (s, QueryResult.resolved cached.item)
    | none => refetchRun fetcher s key now expiration removeOnError

end QueryTs

/-- Argument of `mutate`: `TurboMutateValue<T> = T | TurboMutateFunction<T>`,
where an updater receives the current `(value, expiresAt)` pair, both
possibly absent, and returns the new value. -/
inductive TurboMutateValue (V : Type) where
  | value (v : V)
  | updater (f : Option V → Option Nat → V)

namespace TurboQueryTs

/-- The `mutate` operation of `src/turbo-query.ts` (lines 372-382): when the
argument is a function, look the key up with `Map.get` (which yields
`undefined` for a missing key), call the updater with
`(value?.item, value?.expiresAt)`, then overwrite the entry with
`expiresAt ?? new Date()` and emit `mutated:<key>`. -/
def mutate {V E : Type} (s : QueryState V E) (key : String) (item : TurboMutateValue V)
    (now : Nat) (expiresAt : Option Nat) : QueryState V E :=
  let newItem :=
    match item with
    | .updater f =>
      let value := Store.get s.items key
      f (value.map (fun c => c.item)) (value.map (fun c => c.expiresAt))
    | .value v => v
  { s with
      items := Store.set s.items key ⟨newItem, expiresAt.getD now⟩
      events := s.events ++ [("mutated:" ++ key, EvPayload.value newItem)] }

end TurboQueryTs

namespace QueryTs

/-- The `mutate` operation of `src/query.ts` (lines 309-317): when the
argument is a function, it reads the current entry with
`itemsCache.get(key)` — the `TurboCache.get` of `src/cache.ts` (lines
49-52), which throws `` `The key ${key} is not in the items` `` when the key
is absent — then calls the updater with `(cached.item, cached.expiresAt)`,
overwrites the entry with `expiresAt: new Date()` and emits
`mutated:<key>`.  The possible throw is modelled with `Except`. -/
def mutate {V E : Type} (s : QueryState V E) (key : String) (item : TurboMutateValue V)
    (now : Nat) : Except String (QueryState V E) :=
  match item with
  | .updater f =>
    match Store.get s.items key with
    | none => Except.error ("The key " ++ key ++ " is not in the items")
    | some cached =>
      let newItem := f (some cached.item) (some cached.expiresAt)
      Except.ok { s with
        items := Store.set s.items key ⟨newItem, now⟩
        events := s.events ++ [("mutated:" ++ key, EvPayload.value newItem)] }
  | .value v =>
    Except.ok { s with
      items := Store.set s.items key ⟨v, now⟩
      events := s.events ++ [("mutated:" ++ key, EvPayload.value v)] }

end QueryTs

/-- Dynamically-typed JS value used to model the `typeof item === 'function'`
test in `mutate`: either a string, or a function value.  A function value
is a reference (`fnv idx`); the separate table `apply` passed to `mutateJs`
gives each reference its behaviour, which keeps the inductive type strictly
positive while still letting updaters return arbitrary values — including
other function values. -/
inductive JsVal where
  | str (s : String)
  | fnv (idx : Nat)
deriving DecidableEq

/-- JS `typeof v === 'function'`. -/
def JsVal.isFunction : JsVal → Bool
  | .fnv _ => true
  | _ => false

namespace TurboQueryTs

/-- The items-cache effect of `src/turbo-query.ts`'s `mutate` (lines
372-382) over the dynamic value domain: any function value is treated as an
updater and invoked on the current `(value?.item, value?.expiresAt)` pair;
whatever it returns (function or not) is stored; a non-function value is
stored as-is. -/
def mutateJs (apply : Nat → Option JsVal → Option Nat → JsVal)
    (items : Store (ItemsCacheItem JsVal)) (key : String) (item : JsVal)
    (now : Nat) (expiresAt : Option Nat) : Store (ItemsCacheItem JsVal) :=
  let newItem :=
    match item with
    | .fnv n =>
      let value := Store.get items key
      apply n (value.map (fun c => c.item)) (value.map (fun c => c.expiresAt))
    | v => v
  Store.set items key ⟨newItem, expiresAt.getD now⟩

end TurboQueryTs

/-- Body of the `forget` loop for one key (identical in both files,
turbo-query.ts lines 429-436, query.ts lines 353-359): if the key is in the
items cache, delete it and emit `forgotten:<key>` with the removed value;
otherwise do nothing. -/
def forgetKey {V E : Type} (s : QueryState V E) (key : String) : QueryState V E :=
  match Store.get s.items key with
  | some item =>
    { s with
        items := Store.delete s.items key
        events := s.events ++ [("forgotten:" ++ key, EvPayload.value item.item)] }
  | none => s

/-- The `forget` operation (turbo-query.ts lines 427-437, query.ts lines
351-360): a single key becomes a one-element list, `undefined` becomes the
current key list of the items cache; then the per-key body runs for each.
The resolvers cache is never touched. -/
def forget {V E : Type} (s : QueryState V E) (cacheKeys : Option (List String)) :
    QueryState V E :=
  (cacheKeys.getD (Store.keysList s.items)).foldl forgetKey s

/-- Body of the `abort` loop for one key (turbo-query.ts lines 409-419,
query.ts lines 336-343): if a resolver is pending, signal its abort
controller, remove it from the resolvers cache, and emit `aborted:<key>`
with the pending promise. -/
def abortKey {V E : Type} (s : QueryState V E) (key : String) : QueryState V E :=
  match Store.get s.resolvers key with
  | some resolver =>
    { s with
        resolvers := Store.delete s.resolvers key
        events := s.events ++ [("aborted:" ++ key, EvPayload.promise resolver.item)] }
  | none => s

/-- The `abort` operation (turbo-query.ts lines 406-420, query.ts lines
333-344): defaults to every key currently in the resolvers cache. -/
def abort {V E : Type} (s : QueryState V E) (cacheKeys : Option (List String)) :
    QueryState V E :=
  (cacheKeys.getD (Store.keysList s.resolvers)).foldl abortKey s

/-- The `hydrate` operation of `src/turbo-query.ts` (lines 446-451): for
each key, overwrite the entry with the given literal value and
`expiresAt ?? new Date()`, and emit `hydrated:<key>`. -/
def hydrate {V E : Type} (s : QueryState V E) (ks : List String) (item : V)
    (now : Nat) (expiresAt : Option Nat) : QueryState V E :=
  ks.foldl (fun s1 key =>
    { s1 with
        items := Store.set s1.items key ⟨item, expiresAt.getD now⟩
        events := s1.events ++ [("hydrated:" ++ key, EvPayload.value item)] }) s

/-- Listener table of the `TurboEvents` channel (`src/events.ts`): topic →
listeners in subscription order; listeners are identified by numeric ids
(JS compares them by reference). -/
abbrev Channel := Store (List Nat)

namespace TurboEvents

/-- The `subscribe` of `src/events.ts` (lines 28-38): create the topic's
list when absent, and append the listener unless it is already subscribed
(idempotent subscription). -/
def subscribe (listeners : Channel) (key : String) (l : Nat) : Channel :=
  let cur := (Store.get listeners key).getD []
  if l ∈ cur then listeners else Store.set listeners key (cur ++ [l])

/-- Removal of the first occurrence of a listener,
`splice(indexOf(listener), 1)` as used by `unsubscribe`. -/
def removeFirst : List Nat → Nat → List Nat
  | [], _ => []
  | x :: rest, l => if x = l then rest else x :: removeFirst rest l

/-- The `unsubscribe` of `src/events.ts` (lines 43-55): a no-op for an
unknown topic or listener; otherwise splice the listener out of the topic's
list, and drop the topic entirely when its list becomes empty. -/
def unsubscribe (listeners : Channel) (key : String) (l : Nat) : Channel :=
  match Store.get listeners key with
  | none => listeners
  | some cur =>
    if l ∈ cur then
      let remaining := removeFirst cur l
      if remaining = [] then Store.delete listeners key
      else Store.set listeners key remaining
    else listeners

/-- The `emit` of `src/events.ts` (lines 60-66): invoke every listener of
the topic, in subscription order, with the payload; a no-op for an unknown
topic.  Invocations are appended to the given log. -/
def emit {V E : Type} (listeners : Channel) (key : String) (payload : EvPayload V E)
    (invoked : List (Nat × EvPayload V E)) : List (Nat × EvPayload V E) :=
  match Store.get listeners key with
  | none => invoked
  | some ls => invoked ++ ls.map (fun l => (l, payload))

end TurboEvents

/-- State of the event layer seen by `subscribe`: the channel's listener
table plus a log of synchronous listener invocations. -/
structure SubscribeState (V E : Type) where
  listeners : Channel
  invoked : List (Nat × EvPayload V E)
deriving DecidableEq

namespace QueryTs

/-- The `subscribe` operation of `src/query.ts` (lines 288-302): register
the listener on topic `` `${event}:${key}` ``; when the event is
`refetching` and the resolvers cache holds a pending resolution for the
key, invoke the listener immediately and synchronously with that pending
promise.  The returned unsubscriber captures exactly this topic and
listener; `runUnsubscriber` applies it. -/
def subscribe {V E : Type} (resolvers : Store ResolversCacheItem)
    (st : SubscribeState V E) (key : String) (event : String) (l : Nat) :
    SubscribeState V E × (String × Nat) :=
  let st1 := { st with listeners := TurboEvents.subscribe st.listeners (event ++ ":" ++ key) l }
  let st2 :=
    if event = "refetching" then
      match Store.get resolvers key with
      | some r => { st1 with invoked := st1.invoked ++ [(l, EvPayload.promise r.item)] }
      | none => st1
    else st1
  (st2, (event ++ ":" ++ key, l))

end QueryTs

/-- Application of the capability returned by `subscribe`: it calls
`events.unsubscribe` on the captured topic and listener. -/
def runUnsubscriber (listeners : Channel) (u : String × Nat) : Channel :=
  TurboEvents.unsubscribe listeners u.1 u.2


/-- The deduplication invariant of §3 of the design: at most one
`PendingResolution` per key, i.e. the resolvers cache never holds two
entries for the same key. -/
def OneResolverPerKey {V E : Type} (s : QueryState V E) : Prop :=
  (Store.keysList s.resolvers).Nodup

/-- Concrete empty coordinator state used by witnesses. -/
def wState : QueryState String String := ⟨[], [], 0, [], []⟩

/-- Concrete producer-backed fetcher used by witnesses. -/
def wFetcher : String → FetcherCall String String :=
  fun _ => ⟨true, Outcome.ok "w"⟩

/-- Concrete failing producer-backed fetcher used by witnesses. -/
def wFailFetcher : String → FetcherCall String String :=
  fun _ => ⟨true, Outcome.fail "boom"⟩

/-- Concrete coordinator state holding one expired entry, used by witnesses. -/
def wStaleState : QueryState String String :=
  ⟨[("k", ⟨"v1", 100⟩)], [], 0, [], []⟩

/-- Concrete user fetcher resolving with `"v2"`, used by witnesses. -/
def wFetcherV2 : String → FetcherCall String String :=
  fun _ => ⟨true, Outcome.ok "v2"⟩

/-- Concrete global `fetch` whose responses are ok with JSON body `"v2"`,
used by witnesses. -/
def wFetch : String → Response String := fun _ => ⟨true, "OK", "v2"⟩

/-- Concrete instance with a user fetcher and `stale: false`, used by
witnesses. -/
def wInstStaleOff : Instance String String :=
  createTurboQuery (some ⟨none, some wFetcherV2, some false, none, none⟩)

/-- Concrete instance built as `createTurboQuery({ fetcher })` followed by
`configure({ fresh: true })`, used by witnesses. -/
def wInstConfiguredFresh : Instance String String :=
  configure (createTurboQuery (some ⟨none, some wFetcherV2, none, none, none⟩))
    (some ⟨none, none, none, none, some true⟩)

/-- Concrete instance whose fetcher always fails, used by witnesses. -/
def wInstFail : Instance String String :=
  createTurboQuery (some ⟨none, some wFailFetcher, none, none, none⟩)

/-- Concrete state holding the entry the repo test `can mutate non-existing
cache keys when using a fn` starts from (after `query('example-key')`). -/
def wMutState : QueryState String String :=
  ⟨[("example-key", ⟨"example", 2000⟩)], [], 0, [], []⟩

/-- Concrete function table for the dynamic mutate model: function 0 is an
updater returning the function value 1; every other function returns a
string. -/
def wApply : Nat → Option JsVal → Option Nat → JsVal :=
  fun n _ _ => if n = 0 then JsVal.fnv 1 else JsVal.str "x"

/-- Concrete resolvers cache with a pending resolution for `"k"`
(promise handle 5, controller 4), used by witnesses. -/
def wResolvers : Store ResolversCacheItem := [("k", ⟨5, 4⟩)]

/-- Concrete empty event-layer state, used by witnesses. -/
def wSubState : SubscribeState String String := ⟨[], []⟩

/-- Concrete channel whose `refetching:k` topic has the single listener 7,
used by witnesses. -/
def wChannel : Channel := [("refetching" ++ ":" ++ "k", [7])]

theorem Store.get_set_self {V : Type} (s : Store V) (k : String) (v : V) :
    Store.get (Store.set s k v) k = some v := by
  induction s with
  | nil => simp [Store.set, Store.get]
  | cons p rest ih =>
    by_cases h : p.1 = k
    · simp [Store.set, Store.get, h]
    · simp [Store.set, Store.get, h, ih]

theorem Store.get_set_of_ne {V : Type} (s : Store V) (k k' : String) (v : V) (h : k' ≠ k) :
    Store.get (Store.set s k v) k' = Store.get s k' := by
  have hk : ¬ k = k' := fun hk => h hk.symm
  induction s with
  | nil => simp [Store.set, Store.get, hk]
  | cons p rest ih =>
    by_cases hp : p.1 = k
    · subst hp
      simp [Store.set, Store.get, hk]
    · simp [Store.set, Store.get, hp, ih]

theorem Store.get_delete_self {V : Type} (s : Store V) (k : String) :
    Store.get (Store.delete s k) k = none := by
  induction s with
  | nil => simp [Store.delete, Store.get]
  | cons p rest ih =>
    by_cases h : p.1 = k
    · simp [Store.delete, h, ih]
    · simp [Store.delete, Store.get, h, ih]

theorem Store.get_delete_of_ne {V : Type} (s : Store V) (k k' : String) (h : k' ≠ k) :
    Store.get (Store.delete s k) k' = Store.get s k' := by
  induction s with
  | nil => simp [Store.delete]
  | cons p rest ih =>
    by_cases hp : p.1 = k
    · subst hp
      have hk : ¬ p.1 = k' := fun hk => h hk.symm
      simp [Store.delete, Store.get, hk, ih]
    · simp [Store.delete, Store.get, hp, ih]

theorem Store.get_eq_none_of_not_mem {V : Type} (s : Store V) (k : String)
    (h : k ∉ Store.keysList s) : Store.get s k = none := by
  induction s with
  | nil => simp [Store.get]
  | cons p rest ih =>
    simp only [Store.keysList, List.map_cons, List.mem_cons, not_or] at h
    have hp : ¬ p.1 = k := fun hk => h.1 hk.symm
    simp only [Store.get, if_neg hp]
    exact ih h.2

theorem Store.mem_keysList_set {V : Type} (s : Store V) (k x : String) (v : V)
    (h : x ∈ Store.keysList (Store.set s k v)) : x ∈ Store.keysList s ∨ x = k := by
  induction s with
  | nil =>
    simp [Store.set, Store.keysList] at h
    exact Or.inr h
  | cons p rest ih =>
    by_cases hp : p.1 = k
    · rw [show Store.set (p :: rest) k v = (k, v) :: rest from by simp [Store.set, hp]] at h
      simp only [Store.keysList, List.map_cons, List.mem_cons] at h ⊢
      rcases h with h1 | h1
      · exact Or.inr h1
      · exact Or.inl (Or.inr h1)
    · rw [show Store.set (p :: rest) k v = p :: Store.set rest k v from by simp [Store.set, hp]] at h
      simp only [Store.keysList, List.map_cons, List.mem_cons] at h ⊢
      rcases h with h1 | h1
      · exact Or.inl (Or.inl h1)
      · rcases ih h1 with h2 | h2
        · exact Or.inl (Or.inr h2)
        · exact Or.inr h2

theorem Store.mem_keysList_delete {V : Type} (s : Store V) (k x : String)
    (h : x ∈ Store.keysList (Store.delete s k)) : x ∈ Store.keysList s := by
  induction s with
  | nil => simpa [Store.delete] using h
  | cons p rest ih =>
    by_cases hp : p.1 = k
    · rw [show Store.delete (p :: rest) k = Store.delete rest k from by simp [Store.delete, hp]] at h
      simp only [Store.keysList, List.map_cons, List.mem_cons]
      exact Or.inr (ih h)
    · rw [show Store.delete (p :: rest) k = p :: Store.delete rest k from by
        simp [Store.delete, hp]] at h
      simp only [Store.keysList, List.map_cons, List.mem_cons] at h ⊢
      rcases h with h1 | h1
      · exact Or.inl h1
      · exact Or.inr (ih h1)

theorem Store.nodup_set {V : Type} (s : Store V) (k : String) (v : V)
    (h : (Store.keysList s).Nodup) : (Store.keysList (Store.set s k v)).Nodup := by
  induction s with
  | nil => simp [Store.set, Store.keysList]
  | cons p rest ih =>
    simp only [Store.keysList, List.map_cons, List.nodup_cons] at h
    by_cases hp : p.1 = k
    · rw [show Store.set (p :: rest) k v = (k, v) :: rest from by simp [Store.set, hp]]
      simp only [Store.keysList, List.map_cons, List.nodup_cons]
      refine ⟨fun hm => h.1 ?_, h.2⟩
      rw [hp]
      exact hm
    · rw [show Store.set (p :: rest) k v = p :: Store.set rest k v from by simp [Store.set, hp]]
      simp only [Store.keysList, List.map_cons, List.nodup_cons]
      refine ⟨fun hm => ?_, ih h.2⟩
      rcases Store.mem_keysList_set rest k p.1 v hm with h2 | h2
      · exact h.1 h2
      · exact hp h2

theorem Store.nodup_delete {V : Type} (s : Store V) (k : String)
    (h : (Store.keysList s).Nodup) : (Store.keysList (Store.delete s k)).Nodup := by
  induction s with
  | nil => simp [Store.delete, Store.keysList]
  | cons p rest ih =>
    simp only [Store.keysList, List.map_cons, List.nodup_cons] at h
    by_cases hp : p.1 = k
    · rw [show Store.delete (p :: rest) k = Store.delete rest k from by simp [Store.delete, hp]]
      exact ih h.2
    · rw [show Store.delete (p :: rest) k = p :: Store.delete rest k from by
        simp [Store.delete, hp]]
      simp only [Store.keysList, List.map_cons, List.nodup_cons]
      exact ⟨fun hm => h.1 (Store.mem_keysList_delete rest k p.1 hm), ih h.2⟩

theorem refetchStart_none {V E : Type} (f : String → FetcherCall V E) (s : QueryState V E)
    (k : String) (h : Store.get s.resolvers k = none) :
    refetchStart f s k =
      ({ s with
          nextId := s.nextId + 2
          calls := s.calls ++ [(k, (f k).invokesProducer)]
          resolvers := Store.set s.resolvers k ⟨s.nextId + 1, s.nextId⟩
          events := s.events ++ [("refetching:" ++ k, EvPayload.promise (s.nextId + 1))] },
        .started (s.nextId + 1)) := by
  unfold refetchStart
  rw [h]

theorem refetchStart_some {V E : Type} (f : String → FetcherCall V E) (s : QueryState V E)
    (k : String) (r : ResolversCacheItem) (h : Store.get s.resolvers k = some r) :
    refetchStart f s k = (s, .joined r.item) := by
  unfold refetchStart
  rw [h]

theorem refetchRun_none {V E : Type} (f : String → FetcherCall V E) (s : QueryState V E)
    (k : String) (now : Nat) (expiration : V → Nat) (removeOnError : Bool)
    (h : Store.get s.resolvers k = none) :
    refetchRun f s k now expiration removeOnError =
      refetchFinish (refetchStart f s k).1 k now expiration removeOnError (f k).out := by
  unfold refetchRun
  rw [refetchStart_none f s k h]

theorem refetchStart_nodup {V E : Type} (f : String → FetcherCall V E) (s : QueryState V E)
    (key : String) (h : OneResolverPerKey s) : OneResolverPerKey (refetchStart f s key).1 := by
  unfold refetchStart
  cases hg : Store.get s.resolvers key with
  | none => exact Store.nodup_set _ _ _ h
  | some r => exact h

theorem refetchFinish_nodup {V E : Type} (s : QueryState V E) (key : String) (now : Nat)
    (expiration : V → Nat) (removeOnError : Bool) (o : Outcome V E)
    (h : OneResolverPerKey s) :
    OneResolverPerKey (refetchFinish s key now expiration removeOnError o).1 := by
  cases o with
  | ok v => exact Store.nodup_delete _ _ h
  | fail e => cases removeOnError <;> exact Store.nodup_delete _ _ h

theorem refetchRun_nodup {V E : Type} (f : String → FetcherCall V E) (s : QueryState V E)
    (key : String) (now : Nat) (expiration : V → Nat) (removeOnError : Bool)
    (h : OneResolverPerKey s) :
    OneResolverPerKey (refetchRun f s key now expiration removeOnError).1 := by
  have hs1 : OneResolverPerKey (refetchStart f s key).1 := refetchStart_nodup f s key h
  unfold refetchRun
  rcases hr : refetchStart f s key with ⟨s1, r⟩
  rw [hr] at hs1
  cases r with
  | joined pid => exact hs1
  | started pid => exact refetchFinish_nodup _ _ _ _ _ _ hs1

theorem mutate_resolvers {V E : Type} (s : QueryState V E) (key : String)
    (m : TurboMutateValue V) (now : Nat) (expiresAt : Option Nat) :
    (TurboQueryTs.mutate s key m now expiresAt).resolvers = s.resolvers := by
  cases m <;> rfl

theorem forgetKey_resolvers {V E : Type} (s : QueryState V E) (k : String) :
    (forgetKey s k).resolvers = s.resolvers := by
  unfold forgetKey
  cases Store.get s.items k <;> rfl

theorem foldl_forgetKey_resolvers {V E : Type} (l : List String) :
    ∀ s : QueryState V E, (l.foldl forgetKey s).resolvers = s.resolvers := by
  induction l with
  | nil => intro s; rfl
  | cons k rest ih =>
    intro s
    rw [List.foldl_cons, ih (forgetKey s k), forgetKey_resolvers]

theorem forget_resolvers {V E : Type} (s : QueryState V E) (ko : Option (List String)) :
    (forget s ko).resolvers = s.resolvers :=
  foldl_forgetKey_resolvers _ s

theorem hydrate_resolvers {V E : Type} (ks : List String) (s : QueryState V E) (item : V)
    (now : Nat) (expiresAt : Option Nat) :
    (hydrate s ks item now expiresAt).resolvers = s.resolvers := by
  induction ks generalizing s with
  | nil => rfl
  | cons k rest ih => exact ih _

theorem abortKey_nodup {V E : Type} (s : QueryState V E) (k : String)
    (h : OneResolverPerKey s) : OneResolverPerKey (abortKey s k) := by
  unfold abortKey
  cases Store.get s.resolvers k with
  | none => exact h
  | some r => exact Store.nodup_delete _ _ h

theorem abort_nodup {V E : Type} (s : QueryState V E) (ko : Option (List String))
    (h : OneResolverPerKey s) : OneResolverPerKey (abort s ko) := by
  unfold abort
  generalize ko.getD (Store.keysList s.resolvers) = l
  induction l generalizing s with
  | nil => exact h
  | cons k rest ih => exact ih _ (abortKey_nodup s k h)

/-- C1.  The resolvers cache never holds two pending resolutions for one
key, and this is preserved by every coordinator operation that can touch it
(`refetch` in both phases, `mutate`, `hydrate`, `forget`, `abort`; the
remaining operations do not write the resolvers cache at all).  Moreover,
two `refetch(k)` calls whose synchronous prefixes both run before either
producer call resolves — the cooperative-interleaving behaviour of two
`query(k)` calls reaching `refetch` — invoke the fetcher exactly once, and
the second call joins exactly the pending promise the first one started, so
both callers await the same future. -/
theorem claim_C1_dedup_invariant {V E : Type} (s : QueryState V E) (k : String)
    (f1 f2 : String → FetcherCall V E)
    (hnone : Store.get s.resolvers k = none) :
    (∀ (f : String → FetcherCall V E) (s' : QueryState V E) (key : String),
        OneResolverPerKey s' → OneResolverPerKey (refetchStart f s' key).1)
  ∧ (∀ (f : String → FetcherCall V E) (s' : QueryState V E) (key : String) (now : Nat)
        (expiration : V → Nat) (removeOnError : Bool),
        OneResolverPerKey s' → OneResolverPerKey (refetchRun f s' key now expiration removeOnError).1)
  ∧ (∀ (s' : QueryState V E) (key : String) (m : TurboMutateValue V) (now : Nat)
        (expiresAt : Option Nat),
        OneResolverPerKey s' → OneResolverPerKey (TurboQueryTs.mutate s' key m now expiresAt))
  ∧ (∀ (s' : QueryState V E) (ks : List String) (v : V) (now : Nat) (expiresAt : Option Nat),
        OneResolverPerKey s' → OneResolverPerKey (hydrate s' ks v now expiresAt))
  ∧ (∀ (s' : QueryState V E) (ko : Option (List String)),
        OneResolverPerKey s' → OneResolverPerKey (forget s' ko))
  ∧ (∀ (s' : QueryState V E) (ko : Option (List String)),
        OneResolverPerKey s' → OneResolverPerKey (abort s' ko))
  ∧ (refetchStart f1 s k).2 = RefetchStartResult.started (s.nextId + 1)
  ∧ (refetchStart f2 (refetchStart f1 s k).1 k).2 = RefetchStartResult.joined (s.nextId + 1)
  ∧ (refetchStart f2 (refetchStart f1 s k).1 k).1.calls
      = s.calls ++ [(k, (f1 k).invokesProducer)] := by
  have hstart := refetchStart_none f1 s k hnone
  have hget1 : Store.get (refetchStart f1 s k).1.resolvers k
      = some ⟨s.nextId + 1, s.nextId⟩ := by
    rw [hstart]
    exact Store.get_set_self _ _ _
  have hjoin := refetchStart_some f2 (refetchStart f1 s k).1 k ⟨s.nextId + 1, s.nextId⟩ hget1
  refine ⟨refetchStart_nodup, refetchRun_nodup,
    fun s' key m now expAt h => ?_,
    fun s' ks v now expAt h => ?_,
    fun s' ko h => ?_,
    fun s' ko h => abort_nodup s' ko h, ?_, ?_, ?_⟩
  · unfold OneResolverPerKey
    rw [mutate_resolvers]
    exact h
  · unfold OneResolverPerKey
    rw [hydrate_resolvers]
    exact h
  · unfold OneResolverPerKey
    rw [forget_resolvers]
    exact h
  · rw [hstart]
  · rw [hjoin]
  · rw [hjoin, hstart]

/-- Witness for C1 at a concrete instance: the empty coordinator state, key
`"k"`, and a concrete fetcher; the hypotheses hold and two successive
refetch prefixes produce one fetcher call and one shared pending promise. -/
theorem claim_C1_dedup_invariant_witness :
    Store.get wState.resolvers "k" = none
  ∧ (refetchStart wFetcher wState "k").2 = RefetchStartResult.started 1
  ∧ (refetchStart wFetcher (refetchStart wFetcher wState "k").1 "k").2
      = RefetchStartResult.joined 1
  ∧ (refetchStart wFetcher (refetchStart wFetcher wState "k").1 "k").1.calls
      = [("k", true)] := by
  refine ⟨by decide, ?_, ?_, ?_⟩
  · exact (claim_C1_dedup_invariant wState "k" wFetcher wFetcher (by decide)).2.2.2.2.2.2.1
  · exact (claim_C1_dedup_invariant wState "k" wFetcher wFetcher (by decide)).2.2.2.2.2.2.2.1
  · exact (claim_C1_dedup_invariant wState "k" wFetcher wFetcher (by decide)).2.2.2.2.2.2.2.2

/-- C6.  For every refresh that actually runs its producer call (no pending
resolution was joined) and whose producer call fails: the pending
resolution is removed, the cache entry is deleted exactly when
`removeOnError` is set (and kept unchanged otherwise), `error:<key>` is
emitted carrying the failure, and the refresh rejects with the producer's
original failure value, unwrapped. -/
theorem claim_C6_refetch_failure {V E : Type} (fetcher : String → FetcherCall V E)
    (s : QueryState V E) (key : String) (now : Nat) (expiration : V → Nat)
    (removeOnError : Bool) (e : E)
    (hnone : Store.get s.resolvers key = none)
    (hfail : (fetcher key).out = Outcome.fail e) :
    Store.get (refetchRun fetcher s key now expiration removeOnError).1.resolvers key = none
  ∧ Store.get (refetchRun fetcher s key now expiration removeOnError).1.items key
      = (if removeOnError then none else Store.get s.items key)
  ∧ (refetchRun fetcher s key now expiration removeOnError).1.events
      = s.events ++ [("refetching:" ++ key, EvPayload.promise (s.nextId + 1)),
          ("error:" ++ key, EvPayload.err e)]
  ∧ (refetchRun fetcher s key now expiration removeOnError).2 = QueryResult.rejected e := by
  rw [refetchRun_none fetcher s key now expiration removeOnError hnone,
    refetchStart_none fetcher s key hnone, hfail]
  cases removeOnError <;>
    simp [refetchFinish, Store.get_delete_self]

/-- Witness for C6 at a concrete instance: empty state, key `"k"`, a
fetcher whose producer call fails with `"boom"`, `removeOnError = false`. -/
theorem claim_C6_refetch_failure_witness :
    Store.get wState.resolvers "k" = none
  ∧ (wFailFetcher "k").out = Outcome.fail "boom"
  ∧ (refetchRun wFailFetcher wState "k" 0 (fun _ => 2000) false).2
      = QueryResult.rejected "boom" := by
  refine ⟨by decide, by decide, ?_⟩
  exact (claim_C6_refetch_failure wFailFetcher wState "k" 0 (fun _ => 2000) false "boom"
    (by decide) (by decide)).2.2.2

theorem effFresh_none {V E : Type} (i : Instance V E) (o : TurboQueryOptions V E)
    (h1 : o.fresh = none) (h2 : i.ctorFresh = none) : effFresh i o = false := by
  simp [effFresh, h1, h2, Option.orElse]

theorem refetchFinish_calls {V E : Type} (s : QueryState V E) (key : String) (now : Nat)
    (expiration : V → Nat) (removeOnError : Bool) (o : Outcome V E) :
    (refetchFinish s key now expiration removeOnError o).1.calls = s.calls := by
  cases o with
  | ok v => rfl
  | fail e => cases removeOnError <;> rfl

theorem refetchRun_fail_events {V E : Type} (f : String → FetcherCall V E)
    (s : QueryState V E) (key : String) (now : Nat) (expiration : V → Nat)
    (removeOnError : Bool) (e : E) (hnone : Store.get s.resolvers key = none)
    (hfail : (f key).out = Outcome.fail e) :
    (refetchRun f s key now expiration removeOnError).1.events
      = s.events ++ [("refetching:" ++ key, EvPayload.promise (s.nextId + 1)),
          ("error:" ++ key, EvPayload.err e)] := by
  rw [refetchRun_none f s key now expiration removeOnError hnone,
    refetchStart_none f s key hnone, hfail]
  cases removeOnError <;> simp [refetchFinish]

theorem refetchRun_calls_none {V E : Type} (f : String → FetcherCall V E)
    (s : QueryState V E) (key : String) (now : Nat) (expiration : V → Nat)
    (removeOnError : Bool) (hnone : Store.get s.resolvers key = none) :
    (refetchRun f s key now expiration removeOnError).1.calls
      = s.calls ++ [(key, (f key).invokesProducer)] := by
  rw [refetchRun_none f s key now expiration removeOnError hnone, refetchFinish_calls,
    refetchStart_none f s key hnone]

theorem refetchRun_fail_result {V E : Type} (f : String → FetcherCall V E)
    (s : QueryState V E) (key : String) (now : Nat) (expiration : V → Nat)
    (removeOnError : Bool) (e : E) (hnone : Store.get s.resolvers key = none)
    (hfail : (f key).out = Outcome.fail e) :
    (refetchRun f s key now expiration removeOnError).2 = QueryResult.rejected e := by
  rw [refetchRun_none f s key now expiration removeOnError hnone, hfail]
  cases removeOnError <;> rfl

/-- C2 counterexample.  At the exact expiry instant (`expiresAt = now = 100`,
so `expiresAt <= now` holds) with `stale: false` and a configured fetcher
resolving `"v2"`, the `query.ts` implementation still returns the cached
`"v1"` with an unchanged state — no producer call and no awaited refresh —
because it classifies staleness with the strict `expiresAt < now`.  The
entry is therefore not "classified as expired exactly when
`expiresAt <= now`" in that implementation; `turbo-query.ts`, by contrast,
refreshes at the same instant. -/
theorem claim_C2_expiry_boundary_counterexample :
    QueryTs.query wInstStaleOff wStaleState "k" (noOptions String String) 100
      = (wStaleState, QueryResult.resolved "v1")
  ∧ (100 : Nat) ≤ 100
  ∧ (TurboQueryTs.query wFetch wInstStaleOff wStaleState "k" (noOptions String String) 100).2
      = QueryResult.resolved "v2" := by
  refine ⟨by decide, by decide, by decide⟩

/-- C2 amended.  In `turbo-query.ts`, a cached entry is classified as
expired exactly when `expiresAt <= now`: when `now < expiresAt` the cached
value is returned immediately with no producer call and no state change,
and at `expiresAt <= now` (with `stale` off) the call performs a refresh.
In `query.ts` the classification is the strict `expiresAt < now`: at
`now <= expiresAt` — including the exact expiry instant — the cached value
is returned immediately with no producer call, and only at
`expiresAt < now` (with `stale` off) does the call refresh. -/
theorem claim_C2_expiry_classification {V : Type} (fetch : String → Response V)
    (i : Instance V String) (s : QueryState V String) (key : String)
    (o : TurboQueryOptions V String) (now : Nat) (cached : ItemsCacheItem V)
    (h1 : o.fresh = none) (h2 : i.ctorFresh = none)
    (hcached : Store.get s.items key = some cached) :
    (now < cached.expiresAt →
      TurboQueryTs.query fetch i s key o now = (s, QueryResult.resolved cached.item))
  ∧ (cached.expiresAt ≤ now → effStale i o = false →
      TurboQueryTs.query fetch i s key o now
        = refetchRun (TurboQueryTs.effFetcher fetch i o) s key now (effExpiration i o)
            (effRemoveOnError i o))
  ∧ (now ≤ cached.expiresAt →
      QueryTs.query i s key o now = (s, QueryResult.resolved cached.item))
  ∧ (cached.expiresAt < now → effStale i o = false →
      QueryTs.query i s key o now
        = refetchRun (QueryTs.effFetcher i o) s key now (effExpiration i o)
            (effRemoveOnError i o)) := by
  have hfresh := effFresh_none i o h1 h2
  refine ⟨fun hlive => ?_, fun hexp hstale => ?_, fun hlive => ?_, fun hexp hstale => ?_⟩
  · have he : TurboQueryTs.hasExpired cached.expiresAt now = false := by
      simp [TurboQueryTs.hasExpired]
      omega
    simp [TurboQueryTs.query, hfresh, hcached, he]
  · have he : TurboQueryTs.hasExpired cached.expiresAt now = true := by
      simp [TurboQueryTs.hasExpired]
      omega
    simp [TurboQueryTs.query, hfresh, hcached, he, hstale]
  · have he : QueryTs.hasExpired cached.expiresAt now = false := by
      simp [QueryTs.hasExpired]
      omega
    simp [QueryTs.query, hfresh, hcached, he]
  · have he : QueryTs.hasExpired cached.expiresAt now = true := by
      simp [QueryTs.hasExpired]
      omega
    simp [QueryTs.query, hfresh, hcached, he, hstale]

/-- Witness for C2 at a concrete instance: a cached entry expiring at 100,
queried by `query.ts` at the exact instant 100 (still served from cache)
and by `turbo-query.ts` at 50 (live, served from cache). -/
theorem claim_C2_expiry_classification_witness :
    (noOptions String String).fresh = none
  ∧ wInstStaleOff.ctorFresh = none
  ∧ Store.get wStaleState.items "k" = some ⟨"v1", 100⟩
  ∧ QueryTs.query wInstStaleOff wStaleState "k" (noOptions String String) 100
      = (wStaleState, QueryResult.resolved "v1")
  ∧ TurboQueryTs.query wFetch wInstStaleOff wStaleState "k" (noOptions String String) 50
      = (wStaleState, QueryResult.resolved "v1") := by
  refine ⟨by decide, by decide, by decide, ?_, ?_⟩
  · exact (claim_C2_expiry_classification wFetch wInstStaleOff wStaleState "k"
      (noOptions String String) 100 ⟨"v1", 100⟩ (by decide) (by decide) (by decide)).2.2.1
      (by decide)
  · exact (claim_C2_expiry_classification wFetch wInstStaleOff wStaleState "k"
      (noOptions String String) 50 ⟨"v1", 100⟩ (by decide) (by decide) (by decide)).1
      (by decide)

/-- C3.  Code bug: `configure({ fresh: true })` records the value in the
`instanceFresh` variable, but `query` computes its effective freshness from
`options?.fresh ?? instanceOptions?.fresh` — the construction-time options
object — in both implementations, so a subsequent `query(key)` without a
per-call `fresh` serves a live cached entry instead of performing the
unconditional refresh the configured value mandates.  The same call with a
per-call `fresh: true` does refresh, showing the fresh path itself works. -/
theorem claim_C3_configure_fresh_ignored :
    wInstConfiguredFresh.instFresh = true
  ∧ TurboQueryTs.query wFetch wInstConfiguredFresh wStaleState "k" (noOptions String String) 0
      = (wStaleState, QueryResult.resolved "v1")
  ∧ QueryTs.query wInstConfiguredFresh wStaleState "k" (noOptions String String) 0
      = (wStaleState, QueryResult.resolved "v1")
  ∧ (TurboQueryTs.query wFetch wInstConfiguredFresh wStaleState "k"
      ⟨none, none, none, none, some true⟩ 0).2 = QueryResult.resolved "v2" := by
  refine ⟨by decide, by decide, by decide, by decide⟩

/-- C4 counterexample.  A `turbo-query.ts` coordinator created without any
fetcher does not reject refreshes with a configuration error: its default
fetcher is the HTTP wrapper over the global `fetch`, so a `query` on an
uncached key invokes the external producer (`fetch(key)`) and resolves with
the response body. -/
theorem claim_C4_default_fetcher_counterexample :
    (TurboQueryTs.query wFetch (createTurboQuery none) wState "k"
      (noOptions String String) 0).2 = QueryResult.resolved "v2"
  ∧ (TurboQueryTs.query wFetch (createTurboQuery none) wState "k"
      (noOptions String String) 0).1.calls = [("k", true)] := by
  refine ⟨by decide, by decide⟩

/-- C4 amended.  For the `query.ts` implementation, a coordinator with no
fetcher configured (neither at construction nor via `configure` — instance
fetcher absent — nor per call) uses the throwing default fetcher, so every
refresh that runs its producer slot rejects with the configuration error
`'No fetcher defined. Please add a fetcher first.'` and performs no
external producer work; in particular a `query` on an uncached key rejects
that way.  (`turbo-query.ts` instead defaults to an HTTP fetcher, see the
counterexample.) -/
theorem claim_C4_no_fetcher_config_error {V : Type} (i : Instance V String)
    (s : QueryState V String) (key : String) (o : TurboQueryOptions V String)
    (now : Nat) (expiration : V → Nat) (removeOnError : Bool)
    (hof : o.fetcher = none) (hif : i.instFetcher = none)
    (hnone : Store.get s.resolvers key = none) :
    QueryTs.effFetcher i o key = QueryTs.defaultFetcher V
  ∧ (refetchRun (QueryTs.effFetcher i o) s key now expiration removeOnError).2
      = QueryResult.rejected "No fetcher defined. Please add a fetcher first."
  ∧ (refetchRun (QueryTs.effFetcher i o) s key now expiration removeOnError).1.calls
      = s.calls ++ [(key, false)]
  ∧ (Store.get s.items key = none →
      (QueryTs.query i s key o now).2
        = QueryResult.rejected "No fetcher defined. Please add a fetcher first."
      ∧ (QueryTs.query i s key o now).1.calls = s.calls ++ [(key, false)]) := by
  have heff : QueryTs.effFetcher i o = fun _ => QueryTs.defaultFetcher V := by
    simp [QueryTs.effFetcher, hof, hif, Option.orElse]
  have hfail : ((QueryTs.effFetcher i o) key).out
      = Outcome.fail "No fetcher defined. Please add a fetcher first." := by
    rw [heff]
    rfl
  have hres : ∀ (exp : V → Nat) (roe : Bool),
      (refetchRun (QueryTs.effFetcher i o) s key now exp roe).2
        = QueryResult.rejected "No fetcher defined. Please add a fetcher first." :=
    fun exp roe => refetchRun_fail_result _ _ _ _ _ _ _ hnone hfail
  have hcalls : ∀ (exp : V → Nat) (roe : Bool),
      (refetchRun (QueryTs.effFetcher i o) s key now exp roe).1.calls
        = s.calls ++ [(key, false)] := by
    intro exp roe
    rw [refetchRun_calls_none _ _ _ _ _ _ hnone, heff]
    rfl
  refine ⟨by rw [heff], hres _ _, hcalls _ _, fun hitems => ?_⟩
  cases hf : effFresh i o with
  | true =>
    have hq : QueryTs.query i s key o now
        = refetchRun (QueryTs.effFetcher i o) s key now (effExpiration i o)
            (effRemoveOnError i o) := by
      simp [QueryTs.query, hf]
    rw [hq]
    exact ⟨hres _ _, hcalls _ _⟩
  | false =>
    have hq : QueryTs.query i s key o now
        = refetchRun (QueryTs.effFetcher i o) s key now (effExpiration i o)
            (effRemoveOnError i o) := by
      simp [QueryTs.query, hf, hitems]
    rw [hq]
    exact ⟨hres _ _, hcalls _ _⟩

/-- Witness for C4 at a concrete instance: `createTurboQuery()` with no
fetcher anywhere, empty state, key `"k"`: the query rejects with the
configuration error and the single recorded call does no producer work. -/
theorem claim_C4_no_fetcher_config_error_witness :
    (noOptions String String).fetcher = none
  ∧ (createTurboQuery (none : Option (TurboQueryOptions String String))).instFetcher = none
  ∧ Store.get wState.resolvers "k" = none
  ∧ (QueryTs.query (createTurboQuery none) wState "k" (noOptions String String) 0).2
      = QueryResult.rejected "No fetcher defined. Please add a fetcher first."
  ∧ (QueryTs.query (createTurboQuery none) wState "k" (noOptions String String) 0).1.calls
      = [("k", false)] := by
  have h := (claim_C4_no_fetcher_config_error (createTurboQuery none) wState "k"
    (noOptions String String) 0 (fun _ => 2000) false rfl rfl (by decide)).2.2.2 (by decide)
  exact ⟨rfl, rfl, by decide, h.1, h.2⟩

/-- C5.  With a cached entry that is expired (each implementation by its own
classification) and `stale` allowed, `query(key)` resolves with the
previously cached value no matter how the background refresh's producer
call settles — in particular it still resolves with the stale value when
the producer fails, the failure never being propagated to the caller — and
when the background producer call does fail, the failure is observable
through the emitted `error:<key>` event. -/
theorem claim_C5_stale_serving {V : Type} (fetch : String → Response V)
    (i : Instance V String) (s : QueryState V String) (key : String)
    (o : TurboQueryOptions V String) (now : Nat) (cached : ItemsCacheItem V)
    (h1 : o.fresh = none) (h2 : i.ctorFresh = none)
    (hcached : Store.get s.items key = some cached)
    (hstale : effStale i o = true) :
    (cached.expiresAt ≤ now →
        (TurboQueryTs.query fetch i s key o now).2 = QueryResult.resolved cached.item
      ∧ ∀ e : String, Store.get s.resolvers key = none →
          ((TurboQueryTs.effFetcher fetch i o) key).out = Outcome.fail e →
          ("error:" ++ key, EvPayload.err e)
            ∈ (TurboQueryTs.query fetch i s key o now).1.events)
  ∧ (cached.expiresAt < now →
        (QueryTs.query i s key o now).2 = QueryResult.resolved cached.item
      ∧ ∀ e : String, Store.get s.resolvers key = none →
          ((QueryTs.effFetcher i o) key).out = Outcome.fail e →
          ("error:" ++ key, EvPayload.err e)
            ∈ (QueryTs.query i s key o now).1.events) := by
  have hfresh := effFresh_none i o h1 h2
  constructor
  · intro hexp
    have he : TurboQueryTs.hasExpired cached.expiresAt now = true := by
      simp [TurboQueryTs.hasExpired]
      omega
    have hq : TurboQueryTs.query fetch i s key o now
        = ((refetchRun (TurboQueryTs.effFetcher fetch i o) s key now (effExpiration i o)
            (effRemoveOnError i o)).1, QueryResult.resolved cached.item) := by
      simp [TurboQueryTs.query, hfresh, hcached, he, hstale]
    refine ⟨by rw [hq], fun e hres hfail => ?_⟩
    rw [hq]
    rw [show ((refetchRun (TurboQueryTs.effFetcher fetch i o) s key now (effExpiration i o)
      (effRemoveOnError i o)).1, QueryResult.resolved cached.item).1
        = (refetchRun (TurboQueryTs.effFetcher fetch i o) s key now (effExpiration i o)
            (effRemoveOnError i o)).1 from rfl]
    rw [refetchRun_fail_events _ _ _ _ _ _ _ hres hfail]
    simp
  · intro hexp
    have he : QueryTs.hasExpired cached.expiresAt now = true := by
      simp [QueryTs.hasExpired]
      omega
    have hq : QueryTs.query i s key o now
        = ((refetchRun (QueryTs.effFetcher i o) s key now (effExpiration i o)
            (effRemoveOnError i o)).1, QueryResult.resolved cached.item) := by
      simp [QueryTs.query, hfresh, hcached, he, hstale]
    refine ⟨by rw [hq], fun e hres hfail => ?_⟩
    rw [hq]
    rw [show ((refetchRun (QueryTs.effFetcher i o) s key now (effExpiration i o)
      (effRemoveOnError i o)).1, QueryResult.resolved cached.item).1
        = (refetchRun (QueryTs.effFetcher i o) s key now (effExpiration i o)
            (effRemoveOnError i o)).1 from rfl]
    rw [refetchRun_fail_events _ _ _ _ _ _ _ hres hfail]
    simp

/-- Witness for C5 at a concrete instance: entry expired at 100, queried at
150 with the default `stale: true` and a fetcher that fails with `"boom"`:
both implementations resolve with the stale `"v1"` and emit the error
event. -/
theorem claim_C5_stale_serving_witness :
    (noOptions String String).fresh = none
  ∧ wInstFail.ctorFresh = none
  ∧ Store.get wStaleState.items "k" = some ⟨"v1", 100⟩
  ∧ effStale wInstFail (noOptions String String) = true
  ∧ (TurboQueryTs.query wFetch wInstFail wStaleState "k" (noOptions String String) 150).2
      = QueryResult.resolved "v1"
  ∧ ("error:" ++ "k", EvPayload.err "boom")
      ∈ (TurboQueryTs.query wFetch wInstFail wStaleState "k" (noOptions String String) 150).1.events
  ∧ (QueryTs.query wInstFail wStaleState "k" (noOptions String String) 150).2
      = QueryResult.resolved "v1" := by
  have h := claim_C5_stale_serving wFetch wInstFail wStaleState "k"
    (noOptions String String) 150 ⟨"v1", 100⟩ (by decide) (by decide) (by decide) (by decide)
  refine ⟨by decide, by decide, by decide, by decide, ?_, ?_, ?_⟩
  · exact (h.1 (by decide)).1
  · exact (h.1 (by decide)).2 "boom" (by decide) (by decide)
  · exact (h.2 (by decide)).1

/-- C7.  Code bug in `query.ts`: `mutate(key, updater)` on a key absent
from the value store calls `itemsCache.get(key)`, whose `TurboCache`
implementation throws `The key <key> is not in the items`, so the mutation
fails — exactly the input of the repo's own test `can mutate non-existing
cache keys when using a fn`, and contrary to the updater's declared
`(old?, expiresAt?)` signature.  `turbo-query.ts` implements the claimed
behaviour: the updater receives the absent pair and its result is written
as the new entry. -/
theorem claim_C7_mutate_missing_key_bug :
    QueryTs.mutate wMutState "example-key-2"
      (TurboMutateValue.updater (fun _ _ => "mutated-example")) 2000
      = Except.error "The key example-key-2 is not in the items"
  ∧ Store.get (TurboQueryTs.mutate wMutState "example-key-2"
      (TurboMutateValue.updater (fun _ _ => "mutated-example")) 2000 none).items
      "example-key-2" = some ⟨"mutated-example", 2000⟩ := by
  refine ⟨rfl, by decide⟩

theorem forgetKey_items_get_ne {V E : Type} (s : QueryState V E) (k k' : String)
    (h : k' ≠ k) : Store.get (forgetKey s k).items k' = Store.get s.items k' := by
  unfold forgetKey
  cases hg : Store.get s.items k with
  | none => rfl
  | some it => exact Store.get_delete_of_ne _ _ _ h

theorem forgetKey_items_get_self {V E : Type} (s : QueryState V E) (k : String) :
    Store.get (forgetKey s k).items k = none := by
  unfold forgetKey
  cases hg : Store.get s.items k with
  | none => exact hg
  | some it => exact Store.get_delete_self _ _

theorem forgetKey_eq_of_none {V E : Type} (s : QueryState V E) (k : String)
    (h : Store.get s.items k = none) : forgetKey s k = s := by
  unfold forgetKey
  rw [h]

theorem forgetKey_events_some {V E : Type} (s : QueryState V E) (k : String)
    (it : ItemsCacheItem V) (h : Store.get s.items k = some it) :
    (forgetKey s k).events = s.events ++ [("forgotten:" ++ k, EvPayload.value it.item)] := by
  unfold forgetKey
  rw [h]

theorem foldl_forgetKey_get_not_mem {V E : Type} (l : List String) :
    ∀ (s : QueryState V E) (k : String), k ∉ l →
      Store.get ((l.foldl forgetKey s).items) k = Store.get s.items k := by
  induction l with
  | nil => intro s k _; rfl
  | cons k0 rest ih =>
    intro s k h
    rw [List.foldl_cons]
    have hne : k ≠ k0 := fun he => h (by rw [he]; exact List.mem_cons_self _ _)
    rw [ih _ k (fun hm => h (List.mem_cons_of_mem _ hm)),
      forgetKey_items_get_ne _ _ _ hne]

theorem foldl_forgetKey_get_none {V E : Type} (l : List String) :
    ∀ (s : QueryState V E) (k : String), Store.get s.items k = none →
      Store.get ((l.foldl forgetKey s).items) k = none := by
  induction l with
  | nil => intro s k h; exact h
  | cons k0 rest ih =>
    intro s k h
    rw [List.foldl_cons]
    apply ih
    by_cases he : k = k0
    · subst he
      exact forgetKey_items_get_self s k
    · rw [forgetKey_items_get_ne _ _ _ he]
      exact h

theorem foldl_forgetKey_get_mem {V E : Type} (l : List String) :
    ∀ (s : QueryState V E) (k : String), k ∈ l →
      Store.get ((l.foldl forgetKey s).items) k = none := by
  induction l with
  | nil => intro s k h; cases h
  | cons k0 rest ih =>
    intro s k h
    rw [List.foldl_cons]
    rcases List.mem_cons.mp h with he | hm
    · subst he
      exact foldl_forgetKey_get_none rest _ k (forgetKey_items_get_self s k)
    · exact ih _ k hm

theorem foldl_forgetKey_events {V E : Type} (l : List String) :
    ∀ s : QueryState V E, l.Nodup →
      (l.foldl forgetKey s).events = s.events ++ l.filterMap (fun k =>
        (Store.get s.items k).map
          (fun it => ("forgotten:" ++ k, EvPayload.value it.item))) := by
  induction l with
  | nil => intro s _; simp
  | cons k0 rest ih =>
    intro s h
    rcases List.nodup_cons.mp h with ⟨hk0, hrest⟩
    rw [List.foldl_cons, List.filterMap_cons]
    cases hg : Store.get s.items k0 with
    | none =>
      rw [forgetKey_eq_of_none s k0 hg]
      exact ih s hrest
    | some it =>
      rw [ih (forgetKey s k0) hrest]
      rw [forgetKey_events_some s k0 it hg]
      have hco : ∀ k ∈ rest,
          (Store.get (forgetKey s k0).items k).map
            (fun it => (("forgotten:" ++ k, EvPayload.value it.item) : String × EvPayload V E))
          = (Store.get s.items k).map
            (fun it => (("forgotten:" ++ k, EvPayload.value it.item) : String × EvPayload V E)) := by
        intro k hk
        rw [forgetKey_items_get_ne s k0 k (fun he => hk0 (he ▸ hk))]
      rw [List.filterMap_congr hco]
      simp

/-- C8.  `forget` never touches the resolution store; with an explicit
duplicate-free key list, the final value store maps each listed key to
absent and every other key to its previous entry, and the emitted events
are exactly one `forgotten:<key>` carrying the removed value per listed key
that was present (absent keys contribute no event); the no-argument form
empties the value store and emits the corresponding event for every stored
key. -/
theorem claim_C8_forget_frame {V E : Type} (s : QueryState V E) :
    (∀ ko : Option (List String), (forget s ko).resolvers = s.resolvers)
  ∧ (∀ l : List String, l.Nodup →
      ((forget s (some l)).events = s.events ++ l.filterMap (fun k =>
          (Store.get s.items k).map
            (fun it => ("forgotten:" ++ k, EvPayload.value it.item)))
      ∧ ∀ k : String, Store.get ((forget s (some l)).items) k
          = if k ∈ l then none else Store.get s.items k))
  ∧ ((Store.keysList s.items).Nodup →
      ((forget s none).events = s.events ++ (Store.keysList s.items).filterMap (fun k =>
          (Store.get s.items k).map
            (fun it => ("forgotten:" ++ k, EvPayload.value it.item)))
      ∧ ∀ k : String, Store.get ((forget s none).items) k = none)) := by
  refine ⟨forget_resolvers s, fun l hnd => ⟨foldl_forgetKey_events l s hnd, fun k => ?_⟩,
    fun hnd => ⟨foldl_forgetKey_events _ s hnd, fun k => ?_⟩⟩
  · by_cases hm : k ∈ l
    · rw [if_pos hm]
      exact foldl_forgetKey_get_mem l s k hm
    · rw [if_neg hm]
      exact foldl_forgetKey_get_not_mem l s k hm
  · show Store.get (((Store.keysList s.items).foldl forgetKey s).items) k = none
    by_cases hm : k ∈ Store.keysList s.items
    · exact foldl_forgetKey_get_mem _ s k hm
    · rw [foldl_forgetKey_get_not_mem _ s k hm]
      exact Store.get_eq_none_of_not_mem s.items k hm

/-- Witness for C8 at a concrete instance: a store holding only `"k"`;
`forget` of `["k", "z"]` leaves the resolvers untouched, removes `"k"`,
skips the absent `"z"`, and emits a single `forgotten:k` with `"v1"`; the
no-argument form empties the store. -/
theorem claim_C8_forget_frame_witness :
    (["k", "z"] : List String).Nodup
  ∧ (Store.keysList wStaleState.items).Nodup
  ∧ (forget wStaleState (some ["k", "z"])).resolvers = wStaleState.resolvers
  ∧ Store.get (forget wStaleState (some ["k", "z"])).items "k" = none
  ∧ Store.get (forget wStaleState (some ["k", "z"])).items "other" = Store.get wStaleState.items "other"
  ∧ (forget wStaleState (some ["k", "z"])).events
      = [("forgotten:" ++ "k", EvPayload.value "v1")]
  ∧ Store.get (forget wStaleState none).items "k" = none := by
  have h := claim_C8_forget_frame (V := String) (E := String) wStaleState
  have hl : (["k", "z"] : List String).Nodup := by decide
  have hs : (Store.keysList wStaleState.items).Nodup := by decide
  refine ⟨hl, hs, h.1 (some ["k", "z"]), ?_, ?_, ?_, (h.2.2 hs).2 "k"⟩
  · have := (h.2.1 ["k", "z"] hl).2 "k"
    simpa using this
  · have := (h.2.1 ["k", "z"] hl).2 "other"
    simpa using this
  · have := (h.2.1 ["k", "z"] hl).1
    simpa using this

theorem removeFirst_not_mem (cur : List Nat) (l : Nat) (h : cur.Nodup) :
    l ∉ TurboEvents.removeFirst cur l := by
  induction cur with
  | nil => simp [TurboEvents.removeFirst]
  | cons x rest ih =>
    rcases List.nodup_cons.mp h with ⟨hx, hr⟩
    by_cases he : x = l
    · subst he
      rw [show TurboEvents.removeFirst (x :: rest) x = rest from by
        simp [TurboEvents.removeFirst]]
      exact hx
    · rw [show TurboEvents.removeFirst (x :: rest) l = x :: TurboEvents.removeFirst rest l from by
        simp [TurboEvents.removeFirst, he]]
      intro hmem
      rcases List.mem_cons.mp hmem with h1 | h1
      · exact he h1.symm
      · exact ih hr h1

theorem mem_removeFirst_of_ne (cur : List Nat) (l l' : Nat) (h : l' ≠ l) :
    l' ∈ TurboEvents.removeFirst cur l ↔ l' ∈ cur := by
  induction cur with
  | nil => simp [TurboEvents.removeFirst]
  | cons x rest ih =>
    by_cases he : x = l
    · subst he
      rw [show TurboEvents.removeFirst (x :: rest) x = rest from by
        simp [TurboEvents.removeFirst]]
      constructor
      · exact fun hm => List.mem_cons_of_mem _ hm
      · intro hm
        rcases List.mem_cons.mp hm with h1 | h1
        · exact absurd h1 h
        · exact h1
    · rw [show TurboEvents.removeFirst (x :: rest) l = x :: TurboEvents.removeFirst rest l from by
        simp [TurboEvents.removeFirst, he]]
      simp only [List.mem_cons, ih]

theorem unsubscribe_get_ne_topic (c : Channel) (topic : String) (l : Nat) (t : String)
    (h : t ≠ topic) :
    Store.get (TurboEvents.unsubscribe c topic l) t = Store.get c t := by
  unfold TurboEvents.unsubscribe
  cases hg : Store.get c topic with
  | none => rfl
  | some cur =>
    dsimp only
    by_cases hm : l ∈ cur
    · rw [if_pos hm]
      by_cases hr : TurboEvents.removeFirst cur l = []
      · rw [if_pos hr]
        exact Store.get_delete_of_ne _ _ _ h
      · rw [if_neg hr]
        exact Store.get_set_of_ne _ _ _ _ h
    · rw [if_neg hm]

theorem unsubscribe_not_mem_topic (c : Channel) (topic : String) (l : Nat)
    (cur : List Nat) (hg : Store.get c topic = some cur) (hnd : cur.Nodup) :
    l ∉ (Store.get (TurboEvents.unsubscribe c topic l) topic).getD [] := by
  unfold TurboEvents.unsubscribe
  rw [hg]
  dsimp only
  by_cases hm : l ∈ cur
  · rw [if_pos hm]
    by_cases hr : TurboEvents.removeFirst cur l = []
    · rw [if_pos hr, Store.get_delete_self]
      simp
    · rw [if_neg hr, Store.get_set_self]
      simpa using removeFirst_not_mem cur l hnd
  · rw [if_neg hm, hg]
    simpa using hm

theorem unsubscribe_mem_topic_of_ne (c : Channel) (topic : String) (l l' : Nat)
    (cur : List Nat) (hg : Store.get c topic = some cur) (hne : l' ≠ l) :
    (l' ∈ (Store.get (TurboEvents.unsubscribe c topic l) topic).getD []) ↔ l' ∈ cur := by
  unfold TurboEvents.unsubscribe
  rw [hg]
  dsimp only
  by_cases hm : l ∈ cur
  · rw [if_pos hm]
    by_cases hr : TurboEvents.removeFirst cur l = []
    · rw [if_pos hr, Store.get_delete_self]
      have hiff := mem_removeFirst_of_ne cur l l' hne
      rw [hr] at hiff
      exact hiff
    · rw [if_neg hr, Store.get_set_self]
      exact mem_removeFirst_of_ne cur l l' hne
  · rw [if_neg hm, hg]
    exact Iff.rfl

theorem subscribe_mem (c : Channel) (topic : String) (l : Nat) :
    l ∈ (Store.get (TurboEvents.subscribe c topic l) topic).getD [] := by
  unfold TurboEvents.subscribe
  by_cases hm : l ∈ (Store.get c topic).getD []
  · rw [if_pos hm]
    exact hm
  · rw [if_neg hm, Store.get_set_self]
    simp

/-- C9.  When a pending resolution exists for the key at the moment
`subscribe(key, 'refetching', listener)` is called, the listener is invoked
immediately and synchronously with that pending promise; the listener is
also registered on the topic `refetching:<key>` (so later emissions reach
it); and the returned unsubscriber, applied to any channel, removes exactly
that listener from exactly that topic: every other topic's listeners are
left untouched, and on the captured topic the listener itself is gone while
every other listener's membership is unchanged. -/
theorem claim_C9_subscribe_refetching {V E : Type} (resolvers : Store ResolversCacheItem)
    (st : SubscribeState V E) (key : String) (l : Nat) (r : ResolversCacheItem)
    (hp : Store.get resolvers key = some r) :
    (QueryTs.subscribe resolvers st key "refetching" l).1.invoked
      = st.invoked ++ [(l, EvPayload.promise r.item)]
  ∧ l ∈ (Store.get (QueryTs.subscribe resolvers st key "refetching" l).1.listeners
        ("refetching" ++ ":" ++ key)).getD []
  ∧ (QueryTs.subscribe resolvers st key "refetching" l).2 = ("refetching" ++ ":" ++ key, l)
  ∧ (∀ (c : Channel) (t : String), t ≠ "refetching" ++ ":" ++ key →
      Store.get (runUnsubscriber c (QueryTs.subscribe resolvers st key "refetching" l).2) t
        = Store.get c t)
  ∧ (∀ (c : Channel) (cur : List Nat),
      Store.get c ("refetching" ++ ":" ++ key) = some cur → cur.Nodup →
        (l ∉ (Store.get (runUnsubscriber c (QueryTs.subscribe resolvers st key "refetching" l).2)
              ("refetching" ++ ":" ++ key)).getD []
        ∧ ∀ l' : Nat, l' ≠ l →
            ((l' ∈ (Store.get
                (runUnsubscriber c (QueryTs.subscribe resolvers st key "refetching" l).2)
                ("refetching" ++ ":" ++ key)).getD []) ↔ l' ∈ cur))) := by
  have hsub : QueryTs.subscribe resolvers st key "refetching" l
      = (⟨TurboEvents.subscribe st.listeners ("refetching" ++ ":" ++ key) l,
            st.invoked ++ [(l, EvPayload.promise r.item)]⟩,
          ("refetching" ++ ":" ++ key, l)) := by
    unfold QueryTs.subscribe
    rw [hp]
    simp
  rw [hsub]
  refine ⟨rfl, subscribe_mem _ _ _, rfl, fun c t ht => ?_, fun c cur hg hnd => ⟨?_, ?_⟩⟩
  · exact unsubscribe_get_ne_topic c _ l t ht
  · exact unsubscribe_not_mem_topic c _ l cur hg hnd
  · exact fun l' hne => unsubscribe_mem_topic_of_ne c _ l l' cur hg hne

/-- Witness for C9 at a concrete instance: a pending resolution (promise 5)
for `"k"`, listener 7 subscribing to `refetching`: the listener is invoked
immediately with promise 5, and the unsubscriber empties the concrete
channel's `refetching:k` topic. -/
theorem claim_C9_subscribe_refetching_witness :
    Store.get wResolvers "k" = some ⟨5, 4⟩
  ∧ (QueryTs.subscribe wResolvers wSubState "k" "refetching" 7).1.invoked
      = [(7, EvPayload.promise 5)]
  ∧ (QueryTs.subscribe wResolvers wSubState "k" "refetching" 7).2
      = ("refetching" ++ ":" ++ "k", 7)
  ∧ (7 : Nat) ∉ (Store.get (runUnsubscriber wChannel
      (QueryTs.subscribe wResolvers wSubState "k" "refetching" 7).2)
      ("refetching" ++ ":" ++ "k")).getD [] := by
  have h := claim_C9_subscribe_refetching (V := String) (E := String) wResolvers wSubState
    "k" 7 ⟨5, 4⟩ (by decide)
  exact ⟨by decide, h.1, h.2.2.1, (h.2.2.2.2 wChannel [7] (by decide) (by decide)).1⟩

/-- C10 counterexample.  A function value can be cached through `mutate`:
mutating with function 0 — an updater returning the function value 1 —
stores the function value 1 in the value store, so the stored entry is
itself function-typed. -/
theorem claim_C10_function_cached_counterexample :
    Store.get (TurboQueryTs.mutateJs wApply [] "k" (JsVal.fnv 0) 0 none) "k"
      = some ⟨JsVal.fnv 1, 0⟩
  ∧ (Store.get (TurboQueryTs.mutateJs wApply [] "k" (JsVal.fnv 0) 0 none) "k").map
      (fun c => JsVal.isFunction c.item) = some true := by
  refine ⟨by decide, by decide⟩

/-- C10 amended.  `mutate` treats every function argument as an updater:
the function is invoked on the current `(value, expiresAt)` pair and its
return value — not the function itself — is written as the new entry, while
a non-function argument is stored as-is; the argument function itself is
therefore never stored, but a function value can still end up cached when
the updater's return value is itself a function (see the counterexample). -/
theorem claim_C10_mutate_function_updater
    (apply : Nat → Option JsVal → Option Nat → JsVal)
    (items : Store (ItemsCacheItem JsVal)) (key : String) (n : Nat) (now : Nat)
    (expiresAt : Option Nat) :
    Store.get (TurboQueryTs.mutateJs apply items key (JsVal.fnv n) now expiresAt) key
      = some ⟨apply n ((Store.get items key).map (fun c => c.item))
          ((Store.get items key).map (fun c => c.expiresAt)), expiresAt.getD now⟩
  ∧ ∀ str : String,
      Store.get (TurboQueryTs.mutateJs apply items key (JsVal.str str) now expiresAt) key
        = some ⟨JsVal.str str, expiresAt.getD now⟩ := by
  constructor
  · exact Store.get_set_self _ _ _
  · intro str
    exact Store.get_set_self _ _ _

end TurboQuery
